import Mathlib

/-!
Shallow embedding of the voucher-issuance core of `src/App.tsx`
(School Café Voucher Manager).

The embedded state consists of the student roster, the voucher ledger and
the currently displayed voucher; the operations are the handlers of the
source component (`handleAdjustCommendations`, `handleIssueVoucher`,
`handleToggleRedeemed`) together with the `selectedStudent` / `canIssue`
derivations and the `useLocalStorageState` loading logic.  External
collaborators (the id generator, the clock, `JSON.parse`, `localStorage`)
are passed in as explicit parameters.
-/

namespace CafeVoucher

/-- `interface Student` of `App.tsx`: id, name and a commendation count.
TS numbers holding the count are modelled as `Int` (deltas may be any
integer; the code clamps with `Math.max(0, ...)`). -/
structure Student where
  id : String
  name : String
  commendations : Int
deriving DecidableEq, Repr

/-- `interface Voucher` of `App.tsx`. -/
structure Voucher where
  id : String
  studentId : String
  studentName : String
  issuedAt : String
  amountPence : Nat
  redeemed : Bool
deriving DecidableEq, Repr

/-- `const TARGET_COMMENDATIONS = 5`. -/
def TARGET_COMMENDATIONS : Int := 5

/-- `const VOUCHER_AMOUNT_PENCE = 290`. -/
def VOUCHER_AMOUNT_PENCE : Nat := 290

/-- `const DEMO_STUDENTS` — the seed roster. -/
def DEMO_STUDENTS : List Student :=
  [ { id := "s1", name := "Alice Johnson", commendations := 3 },
    { id := "s2", name := "Ben Carter", commendations := 5 },
    { id := "s3", name := "Chloe Singh", commendations := 1 },
    { id := "s4", name := "Daniel O\x27Neill", commendations := 4 } ]

/-- The component state relevant to the claims: the `students` roster,
the `vouchers` ledger and the `activeVoucher` display pointer. -/
structure AppState where
  students : List Student
  vouchers : List Voucher
  activeVoucher : Option Voucher
deriving DecidableEq, Repr

/-- `selectedStudent` of `App.tsx`:
`students.find((s) => s.id === selectedStudentId) ?? students[0] ?? null`.
A TS `===` between a string and `null` is `false`, so a `none` argument
never matches and falls through to the first student. -/
def selectedStudent (students : List Student) (selectedStudentId : Option String) :
    Option Student :=
  (students.find? (fun student => some student.id == selectedStudentId)).orElse
    (fun _ => students.head?)

/-- `canIssue` of `App.tsx`:
`selectedStudent !== null && selectedStudent.commendations >= TARGET_COMMENDATIONS`. -/
def canIssue (students : List Student) (selectedStudentId : Option String) : Bool :=
  match selectedStudent students selectedStudentId with
  | none => false
  | some student => TARGET_COMMENDATIONS ≤ student.commendations

/-- `handleAdjustCommendations` of `App.tsx`: map over the roster, clamping
the matching student's count at zero with `Math.max(0, commendations + delta)`. -/
def handleAdjustCommendations (id : String) (delta : Int)
    (students : List Student) : List Student :=
  students.map (fun student =>
    if student.id == id then
      { student with commendations := max 0 (student.commendations + delta) }
    else student)

/-- The voucher record constructed inside `handleIssueVoucher`. -/
def mkVoucher (student : Student) (newId nowIso : String) (amt : Nat) : Voucher :=
  { id := newId
    studentId := student.id
    studentName := student.name
    issuedAt := nowIso
    amountPence := amt
    redeemed := false }

/-- `handleIssueVoucher` of `App.tsx`, parameterised by the configured
voucher amount `amt` (the module-level constant `VOUCHER_AMOUNT_PENCE` in
the source), the generated id and the current timestamp.  The guard
`if (!selectedStudent || !canIssue) return;` leaves the state unchanged;
otherwise the new voucher is prepended to the ledger, the selected
student's id is debited by `TARGET_COMMENDATIONS` (clamped at zero) and
the voucher becomes active. -/
def handleIssueVoucherAmt (amt : Nat) (selectedStudentId : Option String)
    (newId nowIso : String) (s : AppState) : AppState :=
  match selectedStudent s.students selectedStudentId with
  | none => s
  | some sel =>
    if canIssue s.students selectedStudentId then
      let voucher := mkVoucher sel newId nowIso amt
      { s with
        vouchers := voucher :: s.vouchers
        students := s.students.map (fun student =>
          if student.id == sel.id then
            { student with
              commendations := max 0 (student.commendations - TARGET_COMMENDATIONS) }
          else student)
        activeVoucher := some voucher }
    else s

/-- `handleIssueVoucher` with the source's configured amount. -/
def handleIssueVoucher (selectedStudentId : Option String)
    (newId nowIso : String) (s : AppState) : AppState :=
  handleIssueVoucherAmt VOUCHER_AMOUNT_PENCE selectedStudentId newId nowIso s

/-- `handleToggleRedeemed` of `App.tsx`: flip `redeemed` on the matching
voucher, leave every other voucher as is. -/
def handleToggleRedeemed (voucherId : String) (vouchers : List Voucher) :
    List Voucher :=
  vouchers.map (fun voucher =>
    if voucher.id == voucherId then
      { voucher with redeemed := !voucher.redeemed }
    else voucher)

/-- A user-initiated operation on the component state: adjusting a
student's commendations, issuing a voucher to the currently selected
student (the selection, the generated id and the timestamp are the
operation's data), or toggling a voucher's redeemed flag. -/
inductive Op where
  | adjust (id : String) (delta : Int)
  | issue (selectedStudentId : Option String) (newId nowIso : String)
  | toggle (voucherId : String)
deriving DecidableEq, Repr

/-- One operation applied to the state, with configured amount `amt`. -/
def stepAmt (amt : Nat) (s : AppState) (op : Op) : AppState :=
  match op with
  | .adjust id delta =>
    { s with students := handleAdjustCommendations id delta s.students }
  | .issue selId newId nowIso => handleIssueVoucherAmt amt selId newId nowIso s
  | .toggle voucherId =>
    { s with vouchers := handleToggleRedeemed voucherId s.vouchers }

/-- One operation applied with the source's configured amount. -/
def step (s : AppState) (op : Op) : AppState :=
  stepAmt VOUCHER_AMOUNT_PENCE s op

/-- A finite sequence of operations, with configured amount `amt`. -/
def runAmt (amt : Nat) (s : AppState) (ops : List Op) : AppState :=
  ops.foldl (stepAmt amt) s

/-- A finite sequence of operations with the source's configured amount. -/
def run (s : AppState) (ops : List Op) : AppState :=
  ops.foldl step s

/-- The `useState` initializer of `useLocalStorageState` in `App.tsx`:
read the raw string under `key` from the store (`getItem`); absence or a
`JSON.parse` failure (`parse` returning `none`) yields `defaultValue`. -/
def loadStoredState {T : Type} (parse : String → Option T) (key : String)
    (defaultValue : T) (getItem : String → Option String) : T :=
  match getItem key with
  | none => defaultValue
  | some stored =>
    match parse stored with
    | none => defaultValue
    | some value => value

/-- The roster persistence key in `App.tsx`. -/
def STUDENTS_KEY : String := "cafe-voucher-students"

/-- The voucher-log persistence key in `App.tsx`. -/
def VOUCHER_LOG_KEY : String := "cafe-voucher-log"

/-- The roster load in `App`: key `"cafe-voucher-students"`, default
`DEMO_STUDENTS`. -/
def loadStudents (parse : String → Option (List Student))
    (getItem : String → Option String) : List Student :=
  loadStoredState parse STUDENTS_KEY DEMO_STUDENTS getItem

/-- The ledger load in `App`: key `"cafe-voucher-log"`, default `[]`. -/
def loadVouchers (parse : String → Option (List Voucher))
    (getItem : String → Option String) : List Voucher :=
  loadStoredState parse VOUCHER_LOG_KEY [] getItem

/-! ### Helper lemmas -/

/-- A map that only rewrites `commendations` to a zero-clamped value keeps
every count non-negative. -/
lemma nonneg_of_mem_clampMap (students : List Student) (pred : Student → Bool)
    (g : Student → Int) (h : ∀ st ∈ students, 0 ≤ st.commendations) :
    ∀ st' ∈ students.map (fun st =>
      if pred st then { st with commendations := max 0 (g st) } else st),
      0 ≤ st'.commendations := by
  intro st' hst'
  obtain ⟨st, hst, rfl⟩ := List.mem_map.mp hst'
  by_cases hp : pred st
  · simp only [hp, if_true]
    exact le_max_left 0 (g st)
  · simp only [hp, if_false]
    exact h st hst

/-- `find?` only depends on the predicate pointwise. -/
lemma find?_congr_pred {α : Type} (p q : α → Bool) (l : List α)
    (h : ∀ a, p a = q a) : l.find? p = l.find? q := by
  have hpq : p = q := funext h
  rw [hpq]

/-- `find?` commutes with a map that preserves the `id` field. -/
lemma find?_map_of_id_preserving (f : Student → Student)
    (hf : ∀ x, (f x).id = x.id) (l : List Student) (sid : String) :
    (l.map f).find? (fun x => x.id == sid) =
      (l.find? (fun x => x.id == sid)).map f := by
  induction l with
  | nil => rfl
  | cons a l ih =>
    rw [List.map_cons, List.find?_cons, List.find?_cons]
    have hfa : ((f a).id == sid) = (a.id == sid) := by rw [hf]
    rw [hfa]
    cases a.id == sid with
    | true => rfl
    | false => exact ih

/-- A successful `selectedStudent` lookup is also the first roster entry
with the returned student's own id. -/
lemma find?_of_selectedStudent (students : List Student)
    (selId : Option String) (st : Student)
    (hsel : selectedStudent students selId = some st) :
    students.find? (fun x => x.id == st.id) = some st := by
  unfold selectedStudent at hsel
  cases hfind : students.find? (fun student => some student.id == selId) with
  | none =>
    rw [hfind] at hsel
    simp only [Option.orElse] at hsel
    obtain ⟨rest, hrest⟩ := List.head?_eq_some_iff.mp hsel
    subst hrest
    rw [List.find?_cons]
    simp
  | some a =>
    rw [hfind] at hsel
    simp only [Option.orElse, Option.some.injEq] at hsel
    subst hsel
    have hid : (some a.id == selId) = true := by
      have h0 := List.find?_some hfind
      exact h0
    have hsid : selId = some a.id := by
      cases selId with
      | none => simp at hid
      | some sid =>
        simp only [beq_iff_eq, Option.some.injEq] at hid
        rw [hid]
    subst hsid
    rw [find?_congr_pred (fun x => x.id == a.id)
      (fun x => some x.id == some a.id) students (by intro x; simp)]
    exact hfind

/-- `canIssue` holds exactly when a selected student exists and has at
least `TARGET_COMMENDATIONS` commendations. -/
lemma canIssue_iff (students : List Student) (selId : Option String) :
    canIssue students selId = true ↔
      ∃ st, selectedStudent students selId = some st ∧
        TARGET_COMMENDATIONS ≤ st.commendations := by
  unfold canIssue
  cases hsel : selectedStudent students selId with
  | none => simp
  | some st =>
    simp only [decide_eq_true_eq]
    constructor
    · intro h
      exact ⟨st, rfl, h⟩
    · rintro ⟨st', h1, h2⟩
      injection h1 with h1
      rw [h1]
      exact h2

/-- A Bool that is not `true` is `false`. -/
lemma bool_eq_false_of_ne_true {b : Bool} (h : ¬b = true) : b = false := by
  cases b with
  | false => rfl
  | true => exact absurd rfl h

/-- When the gate passes, `handleIssueVoucherAmt` takes the issuing
branch: voucher prepended, matching students debited with clamp, the new
voucher active. -/
lemma issueAmt_eq_of_canIssue (amt : Nat) (s : AppState)
    (selId : Option String) (newId nowIso : String) (st : Student)
    (hsel : selectedStudent s.students selId = some st)
    (hc : canIssue s.students selId = true) :
    handleIssueVoucherAmt amt selId newId nowIso s =
      { s with
        vouchers := mkVoucher st newId nowIso amt :: s.vouchers
        students := s.students.map (fun student =>
          if student.id == st.id then
            { student with
              commendations := max 0 (student.commendations - TARGET_COMMENDATIONS) }
          else student)
        activeVoucher := some (mkVoucher st newId nowIso amt) } := by
  unfold handleIssueVoucherAmt
  rw [hsel]
  simp only [hc, if_true]

/-- When the gate fails, `handleIssueVoucherAmt` leaves the state
exactly unchanged. -/
lemma issueAmt_noop_of_not_canIssue (amt : Nat) (s : AppState)
    (selId : Option String) (newId nowIso : String)
    (hc : canIssue s.students selId = false) :
    handleIssueVoucherAmt amt selId newId nowIso s = s := by
  unfold handleIssueVoucherAmt
  cases hsel : selectedStudent s.students selId with
  | none => rfl
  | some st => simp [hc]

/-- Every single step keeps all commendation counts non-negative. -/
lemma stepAmt_nonneg (amt : Nat) (s : AppState) (op : Op)
    (h : ∀ st ∈ s.students, 0 ≤ st.commendations) :
    ∀ st ∈ (stepAmt amt s op).students, 0 ≤ st.commendations := by
  cases op with
  | adjust id delta =>
    show ∀ st ∈ handleAdjustCommendations id delta s.students, _
    unfold handleAdjustCommendations
    exact nonneg_of_mem_clampMap s.students (fun st => st.id == id)
      (fun st => st.commendations + delta) h
  | toggle vid => exact h
  | issue selId newId nowIso =>
    show ∀ st ∈ (handleIssueVoucherAmt amt selId newId nowIso s).students, _
    by_cases hc : canIssue s.students selId = true
    · obtain ⟨sel, hsel, hle⟩ := (canIssue_iff s.students selId).mp hc
      rw [issueAmt_eq_of_canIssue amt s selId newId nowIso sel hsel hc]
      exact nonneg_of_mem_clampMap s.students (fun st => st.id == sel.id)
        (fun st => st.commendations - TARGET_COMMENDATIONS) h
    · rw [issueAmt_noop_of_not_canIssue amt s selId newId nowIso
        (bool_eq_false_of_ne_true hc)]
      exact h

/-- Across one step, every ledger entry survives with its id, studentId,
studentName, issuedAt and amountPence intact; its redeemed flag can only
change when the step is a toggle of that very id. -/
lemma stepAmt_voucher_survives (amt : Nat) (s : AppState) (op : Op)
    (v : Voucher) (hv : v ∈ s.vouchers) :
    ∃ v' ∈ (stepAmt amt s op).vouchers,
      v'.id = v.id ∧ v'.studentId = v.studentId ∧
      v'.studentName = v.studentName ∧ v'.issuedAt = v.issuedAt ∧
      v'.amountPence = v.amountPence ∧
      (v'.redeemed ≠ v.redeemed → op = Op.toggle v.id) := by
  cases op with
  | adjust id delta =>
    exact ⟨v, hv, rfl, rfl, rfl, rfl, rfl, fun h => absurd rfl h⟩
  | issue selId newId nowIso =>
    by_cases hc : canIssue s.students selId = true
    · obtain ⟨sel, hsel, hle⟩ := (canIssue_iff s.students selId).mp hc
      refine ⟨v, ?_, rfl, rfl, rfl, rfl, rfl, fun h => absurd rfl h⟩
      show v ∈ (handleIssueVoucherAmt amt selId newId nowIso s).vouchers
      rw [issueAmt_eq_of_canIssue amt s selId newId nowIso sel hsel hc]
      exact List.mem_cons_of_mem _ hv
    · refine ⟨v, ?_, rfl, rfl, rfl, rfl, rfl, fun h => absurd rfl h⟩
      show v ∈ (handleIssueVoucherAmt amt selId newId nowIso s).vouchers
      rw [issueAmt_noop_of_not_canIssue amt s selId newId nowIso
        (bool_eq_false_of_ne_true hc)]
      exact hv
  | toggle vid =>
    by_cases h : v.id = vid
    · subst h
      refine ⟨{ v with redeemed := !v.redeemed }, ?_, rfl, rfl, rfl, rfl,
        rfl, fun _ => rfl⟩
      show _ ∈ handleToggleRedeemed v.id s.vouchers
      unfold handleToggleRedeemed
      refine List.mem_map.mpr ⟨v, hv, ?_⟩
      simp
    · refine ⟨v, ?_, rfl, rfl, rfl, rfl, rfl, fun hr => absurd rfl hr⟩
      show v ∈ handleToggleRedeemed vid s.vouchers
      unfold handleToggleRedeemed
      refine List.mem_map.mpr ⟨v, hv, ?_⟩
      simp [h]

/-- `stepAmt_voucher_survives` extended over a sequence of operations. -/
lemma runAmt_voucher_survives (amt : Nat) (s : AppState) (ops : List Op)
    (v : Voucher) (hv : v ∈ s.vouchers) :
    ∃ v' ∈ (runAmt amt s ops).vouchers,
      v'.id = v.id ∧ v'.studentId = v.studentId ∧
      v'.studentName = v.studentName ∧ v'.issuedAt = v.issuedAt ∧
      v'.amountPence = v.amountPence ∧
      (v'.redeemed ≠ v.redeemed → Op.toggle v.id ∈ ops) := by
  induction ops generalizing s v with
  | nil => exact ⟨v, hv, rfl, rfl, rfl, rfl, rfl, fun h => absurd rfl h⟩
  | cons op ops ih =>
    obtain ⟨v1, hv1, hid, hsid, hname, hiss, hamt, hred⟩ :=
      stepAmt_voucher_survives amt s op v hv
    obtain ⟨v2, hv2, hid2, hsid2, hname2, hiss2, hamt2, hred2⟩ :=
      ih (stepAmt amt s op) v1 hv1
    refine ⟨v2, hv2, hid2.trans hid, hsid2.trans hsid, hname2.trans hname,
      hiss2.trans hiss, hamt2.trans hamt, ?_⟩
    intro hne
    by_cases hb : v1.redeemed = v.redeemed
    · have hne1 : v2.redeemed ≠ v1.redeemed := by
        rw [hb]
        exact hne
      have hmem := hred2 hne1
      rw [hid] at hmem
      exact List.mem_cons_of_mem op hmem
    · have hop := hred hb
      rw [hop]
      exact List.mem_cons_self _ _

/-- No single step shrinks the ledger. -/
lemma stepAmt_length_le (amt : Nat) (s : AppState) (op : Op) :
    s.vouchers.length ≤ (stepAmt amt s op).vouchers.length := by
  cases op with
  | adjust id delta => exact le_refl _
  | toggle vid =>
    show _ ≤ (handleToggleRedeemed vid s.vouchers).length
    unfold handleToggleRedeemed
    rw [List.length_map]
  | issue selId newId nowIso =>
    show _ ≤ (handleIssueVoucherAmt amt selId newId nowIso s).vouchers.length
    by_cases hc : canIssue s.students selId = true
    · obtain ⟨sel, hsel, hle⟩ := (canIssue_iff s.students selId).mp hc
      rw [issueAmt_eq_of_canIssue amt s selId newId nowIso sel hsel hc]
      exact Nat.le_succ _
    · rw [issueAmt_noop_of_not_canIssue amt s selId newId nowIso
        (bool_eq_false_of_ne_true hc)]

/-- No sequence of operations shrinks the ledger. -/
lemma runAmt_length_le (amt : Nat) (s : AppState) (ops : List Op) :
    s.vouchers.length ≤ (runAmt amt s ops).vouchers.length := by
  induction ops generalizing s with
  | nil => exact le_refl _
  | cons op ops ih =>
    exact (stepAmt_length_le amt s op).trans (ih (stepAmt amt s op))

/-! ### Claim theorems -/

/-- Claim C6: for every ledger and voucher id, `handleToggleRedeemed`
applied twice with the same id returns the ledger to its original state
(in particular each voucher's `redeemed` value), and applied with an id
matching no voucher it leaves the ledger exactly unchanged. -/
theorem toggleRedeemed_involution_unknown_noop (vouchers : List Voucher)
    (voucherId : String) :
    handleToggleRedeemed voucherId (handleToggleRedeemed voucherId vouchers) =
      vouchers ∧
    ((∀ v ∈ vouchers, v.id ≠ voucherId) →
      handleToggleRedeemed voucherId vouchers = vouchers) := by
  constructor
  · unfold handleToggleRedeemed
    rw [List.map_map]
    refine (List.map_congr_left ?_).trans (List.map_id vouchers)
    intro v _
    by_cases h : v.id = voucherId
    · subst h
      simp
    · simp [h]
  · intro hnone
    unfold handleToggleRedeemed
    refine (List.map_congr_left ?_).trans (List.map_id vouchers)
    intro v hv
    have h : (v.id == voucherId) = false := by
      simp only [beq_eq_false_iff_ne, ne_eq]
      exact hnone v hv
    rw [h]
    simp

/-- Claim C6 witness: toggling an unknown id on a one-voucher ledger is a
no-op. -/
theorem toggleRedeemed_involution_unknown_noop_witness :
    (∀ v ∈ ([⟨"v0", "s1", "Alice Johnson", "t0", 290, false⟩] : List Voucher),
      v.id ≠ "zz") ∧
    handleToggleRedeemed "zz" [⟨"v0", "s1", "Alice Johnson", "t0", 290, false⟩] =
      [⟨"v0", "s1", "Alice Johnson", "t0", 290, false⟩] :=
  ⟨by decide,
    (toggleRedeemed_involution_unknown_noop
      [⟨"v0", "s1", "Alice Johnson", "t0", 290, false⟩] "zz").2 (by decide)⟩

/-- Claim C10: `handleAdjustCommendations` with an unmatched id leaves the
roster exactly unchanged; with a matched id it rewrites only the matching
student's `commendations` field to `max 0 (commendations + delta)`,
preserving that student's id and name, every non-matching student, and
the roster's length and positional order. -/
theorem adjustCommendations_frame (students : List Student) (id : String)
    (delta : Int) :
    ((∀ st ∈ students, st.id ≠ id) →
      handleAdjustCommendations id delta students = students) ∧
    (handleAdjustCommendations id delta students).length = students.length ∧
    (∀ (i : Nat) (st : Student), students[i]? = some st →
      ∃ st', (handleAdjustCommendations id delta students)[i]? = some st' ∧
        st'.id = st.id ∧ st'.name = st.name ∧
        (st.id ≠ id → st' = st) ∧
        (st.id = id →
          st'.commendations = max 0 (st.commendations + delta))) := by
  refine ⟨?_, ?_, ?_⟩
  · intro hnone
    unfold handleAdjustCommendations
    refine (List.map_congr_left ?_).trans (List.map_id students)
    intro st hst
    have h : (st.id == id) = false := by
      simp only [beq_eq_false_iff_ne, ne_eq]
      exact hnone st hst
    rw [h]
    simp
  · exact List.length_map students _
  · intro i st hst
    refine ⟨if st.id == id then
        { st with commendations := max 0 (st.commendations + delta) }
      else st, ?_, ?_, ?_, ?_, ?_⟩
    · unfold handleAdjustCommendations
      rw [List.getElem?_map, hst]
      rfl
    · by_cases h : st.id = id <;> simp [h]
    · by_cases h : st.id = id <;> simp [h]
    · intro h
      have hb : (st.id == id) = false := by
        simp only [beq_eq_false_iff_ne, ne_eq]
        exact h
      rw [hb]
      simp
    · intro h
      have hb : (st.id == id) = true := by
        simp only [beq_iff_eq]
        exact h
      rw [hb]
      simp

/-- Claim C10 witness: adjusting an unknown id leaves the seed roster
unchanged. -/
theorem adjustCommendations_frame_witness :
    (∀ st ∈ DEMO_STUDENTS, st.id ≠ "zz") ∧
    handleAdjustCommendations "zz" 3 DEMO_STUDENTS = DEMO_STUDENTS :=
  ⟨by decide, (adjustCommendations_frame DEMO_STUDENTS "zz" 3).1 (by decide)⟩

/-- Claim C7: `selectedStudent` returns the (first) student whose id
matches the argument; if the argument is `none` or matches no student it
falls back to the first student in roster order; and it returns `none`
exactly when the roster is empty. -/
theorem selectedStudent_fallback_spec (students : List Student)
    (selId : Option String) :
    ((∃ st ∈ students, some st.id = selId) →
      ∃ st ∈ students, selectedStudent students selId = some st ∧
        some st.id = selId) ∧
    ((selId = none ∨ ∀ st ∈ students, some st.id ≠ selId) →
      selectedStudent students selId = students.head?) ∧
    (selectedStudent students selId = none ↔ students = []) := by
  refine ⟨?_, ?_, ?_⟩
  · intro hex
    have hsome : (students.find?
        (fun student => some student.id == selId)).isSome := by
      rw [List.find?_isSome]
      obtain ⟨st, hst, hid⟩ := hex
      exact ⟨st, hst, by simp [hid]⟩
    obtain ⟨a, ha⟩ := Option.isSome_iff_exists.mp hsome
    have hmem : a ∈ students := List.mem_of_find?_eq_some ha
    have hid : (some a.id == selId) = true := by
      have h0 := List.find?_some ha
      exact h0
    refine ⟨a, hmem, ?_, by simpa using hid⟩
    unfold selectedStudent
    rw [ha]
    rfl
  · intro hfall
    have hnone : students.find?
        (fun student => some student.id == selId) = none := by
      rw [List.find?_eq_none]
      intro st hst
      cases hfall with
      | inl h => subst h; simp
      | inr h =>
        simp only [Bool.not_eq_true, beq_eq_false_iff_ne, ne_eq]
        exact h st hst
    unfold selectedStudent
    rw [hnone]
    rfl
  · cases students with
    | nil => simp [selectedStudent]
    | cons a rest =>
      constructor
      · intro h
        exfalso
        unfold selectedStudent at h
        cases hfind : (a :: rest).find?
            (fun student => some student.id == selId) with
        | none =>
          rw [hfind] at h
          simp only [Option.orElse, List.head?_cons] at h
          exact Option.noConfusion h
        | some b =>
          rw [hfind] at h
          simp only [Option.orElse] at h
          exact Option.noConfusion h
      · intro h
        exact absurd h (List.cons_ne_nil a rest)

/-- Claim C7 witness: an id matching no seed student falls back to the
first student in roster order. -/
theorem selectedStudent_fallback_spec_witness :
    ((some "zz" : Option String) = none ∨
      ∀ st ∈ DEMO_STUDENTS, some st.id ≠ some "zz") ∧
    selectedStudent DEMO_STUDENTS (some "zz") = DEMO_STUDENTS.head? :=
  ⟨by decide,
    (selectedStudent_fallback_spec DEMO_STUDENTS (some "zz")).2.1 (by decide)⟩

/-- Claim C8: loading a persisted record that is absent (`getItem` returns
`none`) or malformed (`parse` fails) yields the documented default — the
seed roster for the roster key, the empty ledger for the voucher-log
key; the two keys are distinct, and the loaded ledger depends only on
the raw data stored under the voucher-log key, so corrupt roster data
cannot affect it. -/
theorem load_defaults_on_missing_or_corrupt
    (parseStudents : String → Option (List Student))
    (parseVouchers : String → Option (List Voucher))
    (getItem : String → Option String) :
    (getItem STUDENTS_KEY = none →
      loadStudents parseStudents getItem = DEMO_STUDENTS) ∧
    (∀ raw, getItem STUDENTS_KEY = some raw → parseStudents raw = none →
      loadStudents parseStudents getItem = DEMO_STUDENTS) ∧
    (getItem VOUCHER_LOG_KEY = none →
      loadVouchers parseVouchers getItem = []) ∧
    (∀ raw, getItem VOUCHER_LOG_KEY = some raw → parseVouchers raw = none →
      loadVouchers parseVouchers getItem = []) ∧
    STUDENTS_KEY ≠ VOUCHER_LOG_KEY ∧
    (∀ getItem2 : String → Option String,
      getItem VOUCHER_LOG_KEY = getItem2 VOUCHER_LOG_KEY →
      loadVouchers parseVouchers getItem = loadVouchers parseVouchers getItem2) := by
  refine ⟨?_, ?_, ?_, ?_, ?_, ?_⟩
  · intro h
    unfold loadStudents loadStoredState
    rw [h]
  · intro raw h hp
    unfold loadStudents loadStoredState
    simp [h, hp]
  · intro h
    unfold loadVouchers loadStoredState
    rw [h]
  · intro raw h hp
    unfold loadVouchers loadStoredState
    simp [h, hp]
  · decide
  · intro getItem2 h
    unfold loadVouchers loadStoredState
    rw [h]

/-- Claim C8 witness: an empty store loads the seed roster. -/
theorem load_defaults_on_missing_or_corrupt_witness :
    ((fun _ => (none : Option String)) STUDENTS_KEY = none) ∧
    loadStudents (fun _ => none) (fun _ => none) = DEMO_STUDENTS :=
  ⟨rfl,
    (load_defaults_on_missing_or_corrupt (fun _ => none) (fun _ => none)
      (fun _ => none)).1 rfl⟩

/-- Claim C1: `handleIssueVoucher` issues (the ledger grows by one) if
and only if the selected student exists and has at least
`TARGET_COMMENDATIONS` commendations at the moment of the call; when the
`canIssue` gate fails the whole state — roster, ledger and active
voucher — is exactly unchanged. -/
theorem issue_threshold_gate (s : AppState) (selId : Option String)
    (newId nowIso : String) :
    ((handleIssueVoucher selId newId nowIso s).vouchers.length =
        s.vouchers.length + 1 ↔
      ∃ st, selectedStudent s.students selId = some st ∧
        TARGET_COMMENDATIONS ≤ st.commendations) ∧
    (canIssue s.students selId = false →
      handleIssueVoucher selId newId nowIso s = s) ∧
    (canIssue s.students selId = true ↔
      ∃ st, selectedStudent s.students selId = some st ∧
        TARGET_COMMENDATIONS ≤ st.commendations) := by
  refine ⟨?_, ?_, canIssue_iff s.students selId⟩
  · by_cases hc : canIssue s.students selId = true
    · obtain ⟨st, hsel, hle⟩ := (canIssue_iff s.students selId).mp hc
      constructor
      · intro _
        exact ⟨st, hsel, hle⟩
      · intro _
        unfold handleIssueVoucher
        rw [issueAmt_eq_of_canIssue VOUCHER_AMOUNT_PENCE s selId newId nowIso
          st hsel hc]
        simp
    · have hc' := bool_eq_false_of_ne_true hc
      have hunch : handleIssueVoucher selId newId nowIso s = s :=
        issueAmt_noop_of_not_canIssue VOUCHER_AMOUNT_PENCE s selId newId
          nowIso hc'
      constructor
      · intro hlen
        rw [hunch] at hlen
        exact absurd hlen.symm (Nat.succ_ne_self s.vouchers.length)
      · intro hex
        exact absurd ((canIssue_iff s.students selId).mpr hex) hc
  · intro hc'
    exact issueAmt_noop_of_not_canIssue VOUCHER_AMOUNT_PENCE s selId newId
      nowIso hc'

/-- Claim C1 witness: with the seed roster and student s4 selected
(4 commendations), issuance is refused and the state is unchanged. -/
theorem issue_threshold_gate_witness :
    canIssue DEMO_STUDENTS (some "s4") = false ∧
    handleIssueVoucher (some "s4") "v1" "t1"
        ⟨DEMO_STUDENTS, [], none⟩ = ⟨DEMO_STUDENTS, [], none⟩ :=
  ⟨by decide,
    (issue_threshold_gate ⟨DEMO_STUDENTS, [], none⟩ (some "s4") "v1" "t1").2.1
      (by decide)⟩

/-- Claim C2: after a successful issuance the issuing student's roster
entry has `commendations = max 0 (commendations_before - 5)` (id and
name untouched) and the ledger's length grows by exactly one. -/
theorem issue_debit_and_append (s : AppState) (selId : Option String)
    (newId nowIso : String) (st : Student)
    (hsel : selectedStudent s.students selId = some st)
    (hle : TARGET_COMMENDATIONS ≤ st.commendations) :
    ((handleIssueVoucher selId newId nowIso s).students.find?
        (fun x => x.id == st.id) =
      some { st with
        commendations := max 0 (st.commendations - TARGET_COMMENDATIONS) }) ∧
    (handleIssueVoucher selId newId nowIso s).vouchers.length =
      s.vouchers.length + 1 := by
  have hc : canIssue s.students selId = true :=
    (canIssue_iff s.students selId).mpr ⟨st, hsel, hle⟩
  unfold handleIssueVoucher
  rw [issueAmt_eq_of_canIssue VOUCHER_AMOUNT_PENCE s selId newId nowIso st
    hsel hc]
  constructor
  · have hpres : ∀ x : Student,
        (if x.id == st.id then
          { x with
            commendations := max 0 (x.commendations - TARGET_COMMENDATIONS) }
        else x).id = x.id := by
      intro x
      by_cases h : x.id = st.id <;> simp [h]
    have hfind := find?_of_selectedStudent s.students selId st hsel
    show (s.students.map _).find? (fun x : Student => x.id == st.id) = _
    rw [find?_map_of_id_preserving _ hpres s.students st.id, hfind]
    simp
  · simp

/-- Claim C2 witness: a student with 7 commendations ends with 2 (not 0)
and the ledger grows from empty to one voucher. -/
theorem issue_debit_and_append_witness :
    selectedStudent [⟨"s9", "Test Student", 7⟩] (some "s9") =
      some ⟨"s9", "Test Student", 7⟩ ∧
    TARGET_COMMENDATIONS ≤ (7 : Int) ∧
    ((handleIssueVoucher (some "s9") "v1" "t1"
        ⟨[⟨"s9", "Test Student", 7⟩], [], none⟩).students.find?
        (fun x => x.id == "s9") = some ⟨"s9", "Test Student", 2⟩ ∧
      (handleIssueVoucher (some "s9") "v1" "t1"
        ⟨[⟨"s9", "Test Student", 7⟩], [], none⟩).vouchers.length = 0 + 1) :=
  ⟨by decide, by decide,
    issue_debit_and_append ⟨[⟨"s9", "Test Student", 7⟩], [], none⟩
      (some "s9") "v1" "t1" ⟨"s9", "Test Student", 7⟩ (by decide) (by decide)⟩

/-- Claim C5: each successful issuance prepends the newly built voucher
to the front of the ledger; and no operation re-orders the ledger — every
step either preserves the id sequence exactly or prepends the new id, so
the ledger stays in most-recent-first insertion order. -/
theorem ledger_most_recent_first (s : AppState) :
    (∀ (selId : Option String) (newId nowIso : String) (st : Student),
      selectedStudent s.students selId = some st →
      TARGET_COMMENDATIONS ≤ st.commendations →
      (step s (Op.issue selId newId nowIso)).vouchers =
        mkVoucher st newId nowIso VOUCHER_AMOUNT_PENCE :: s.vouchers) ∧
    (∀ op : Op,
      (step s op).vouchers.map Voucher.id = s.vouchers.map Voucher.id ∨
      ∃ selId newId nowIso, op = Op.issue selId newId nowIso ∧
        (step s op).vouchers.map Voucher.id =
          newId :: s.vouchers.map Voucher.id) := by
  constructor
  · intro selId newId nowIso st hsel hle
    have hc : canIssue s.students selId = true :=
      (canIssue_iff s.students selId).mpr ⟨st, hsel, hle⟩
    show (handleIssueVoucherAmt VOUCHER_AMOUNT_PENCE selId newId nowIso
      s).vouchers = _
    rw [issueAmt_eq_of_canIssue VOUCHER_AMOUNT_PENCE s selId newId nowIso st
      hsel hc]
  · intro op
    cases op with
    | adjust id delta => left; rfl
    | toggle vid =>
      left
      show (handleToggleRedeemed vid s.vouchers).map Voucher.id = _
      unfold handleToggleRedeemed
      rw [List.map_map]
      apply List.map_congr_left
      intro v _
      by_cases h : v.id = vid <;> simp [h]
    | issue selId newId nowIso =>
      by_cases hc : canIssue s.students selId = true
      · obtain ⟨st, hsel, hle⟩ := (canIssue_iff s.students selId).mp hc
        right
        refine ⟨selId, newId, nowIso, rfl, ?_⟩
        show ((handleIssueVoucherAmt VOUCHER_AMOUNT_PENCE selId newId nowIso
          s).vouchers).map Voucher.id = _
        rw [issueAmt_eq_of_canIssue VOUCHER_AMOUNT_PENCE s selId newId nowIso
          st hsel hc]
        rfl
      · left
        have hc' := bool_eq_false_of_ne_true hc
        show ((handleIssueVoucherAmt VOUCHER_AMOUNT_PENCE selId newId nowIso
          s).vouchers).map Voucher.id = _
        rw [issueAmt_noop_of_not_canIssue VOUCHER_AMOUNT_PENCE s selId newId
          nowIso hc']

/-- Claim C5 witness: issuing to eligible student s2 prepends the built
voucher onto the empty ledger. -/
theorem ledger_most_recent_first_witness :
    selectedStudent DEMO_STUDENTS (some "s2") =
      some ⟨"s2", "Ben Carter", 5⟩ ∧
    TARGET_COMMENDATIONS ≤ (5 : Int) ∧
    (step ⟨DEMO_STUDENTS, [], none⟩ (Op.issue (some "s2") "v1" "t1")).vouchers =
      mkVoucher ⟨"s2", "Ben Carter", 5⟩ "v1" "t1" VOUCHER_AMOUNT_PENCE :: [] :=
  ⟨by decide, by decide,
    (ledger_most_recent_first ⟨DEMO_STUDENTS, [], none⟩).1 (some "s2") "v1"
      "t1" ⟨"s2", "Ben Carter", 5⟩ (by decide) (by decide)⟩

/-- Claim C3: starting from any roster whose commendation counts are all
non-negative, after any finite sequence of operations (adjustments with
arbitrary ids and integer deltas, interleaved with issuances and
toggles) every student's commendations are still non-negative.  Since
`ops` is arbitrary, this applies to every prefix of a sequence, i.e. at
all times. -/
theorem commendations_nonneg_invariant (s : AppState) (ops : List Op)
    (h : ∀ st ∈ s.students, 0 ≤ st.commendations) :
    ∀ st ∈ (run s ops).students, 0 ≤ st.commendations := by
  induction ops generalizing s with
  | nil => exact h
  | cons op ops ih =>
    exact ih (step s op) (stepAmt_nonneg VOUCHER_AMOUNT_PENCE s op h)

/-- Claim C3 witness: the seed roster stays non-negative under a
commendation debit of 10, an issuance and a toggle. -/
theorem commendations_nonneg_invariant_witness :
    (∀ st ∈ (AppState.mk DEMO_STUDENTS [] none).students,
      0 ≤ st.commendations) ∧
    (∀ st ∈ (run ⟨DEMO_STUDENTS, [], none⟩
        [Op.adjust "s1" (-10), Op.issue (some "s2") "v1" "t1",
          Op.toggle "v1"]).students, 0 ≤ st.commendations) :=
  ⟨by decide,
    commendations_nonneg_invariant ⟨DEMO_STUDENTS, [], none⟩
      [Op.adjust "s1" (-10), Op.issue (some "s2") "v1" "t1", Op.toggle "v1"]
      (by decide)⟩

/-- Claim C4: a voucher already in the ledger keeps its `studentName`
and `amountPence` snapshots under any later history: the roster may be
replaced wholesale (which covers renaming the originating student — the
source has no rename handler, so every possible later roster content is
covered) and later operations may run with any other configured voucher
amount `amt2`. -/
theorem voucher_snapshot_immutable (amt2 : Nat) (s : AppState)
    (newStudents : List Student) (ops : List Op) (v : Voucher)
    (hv : v ∈ s.vouchers) :
    ∃ v' ∈ (runAmt amt2 { s with students := newStudents } ops).vouchers,
      v'.studentName = v.studentName ∧ v'.amountPence = v.amountPence := by
  obtain ⟨v', hv', _, _, hname, _, hamt, _⟩ :=
    runAmt_voucher_survives amt2 { s with students := newStudents } ops v hv
  exact ⟨v', hv', hname, hamt⟩

/-- Claim C4 witness: after renaming student s1 and issuing with a
different configured amount, the old voucher still shows the old name
and amount. -/
theorem voucher_snapshot_immutable_witness :
    (⟨"v0", "s1", "Alice Johnson", "t0", 290, false⟩ : Voucher) ∈
      ([⟨"v0", "s1", "Alice Johnson", "t0", 290, false⟩] : List Voucher) ∧
    ∃ v' ∈ (runAmt 100
        ⟨[⟨"s1", "Renamed Student", 9⟩],
          [⟨"v0", "s1", "Alice Johnson", "t0", 290, false⟩], none⟩
        [Op.issue (some "s1") "v1" "t1"]).vouchers,
      v'.studentName = "Alice Johnson" ∧ v'.amountPence = 290 :=
  ⟨by decide,
    voucher_snapshot_immutable 100
      ⟨DEMO_STUDENTS, [⟨"v0", "s1", "Alice Johnson", "t0", 290, false⟩], none⟩
      [⟨"s1", "Renamed Student", 9⟩] [Op.issue (some "s1") "v1" "t1"]
      ⟨"v0", "s1", "Alice Johnson", "t0", 290, false⟩ (by decide)⟩

/-- Claim C9: across any sequence of operations the ledger never loses a
voucher (its length never decreases and each existing voucher is still
present, found by its id), each surviving entry keeps id, studentId,
studentName, issuedAt and amountPence exactly as created, and its
`redeemed` flag can only have changed if the sequence contains a
`toggle` of that voucher's own id. -/
theorem ledger_permanent_fields_immutable (s : AppState) (ops : List Op)
    (v : Voucher) (hv : v ∈ s.vouchers) :
    s.vouchers.length ≤ (run s ops).vouchers.length ∧
    ∃ v' ∈ (run s ops).vouchers,
      v'.id = v.id ∧ v'.studentId = v.studentId ∧
      v'.studentName = v.studentName ∧ v'.issuedAt = v.issuedAt ∧
      v'.amountPence = v.amountPence ∧
      (v'.redeemed ≠ v.redeemed → Op.toggle v.id ∈ ops) :=
  ⟨runAmt_length_le VOUCHER_AMOUNT_PENCE s ops,
    runAmt_voucher_survives VOUCHER_AMOUNT_PENCE s ops v hv⟩

/-- Claim C9 witness: a ledger entry survives an adjust, an issue and a
toggle of another voucher's id, with all frozen fields intact. -/
theorem ledger_permanent_fields_immutable_witness :
    (⟨"v0", "s1", "Alice Johnson", "t0", 290, false⟩ : Voucher) ∈
      ([⟨"v0", "s1", "Alice Johnson", "t0", 290, false⟩] : List Voucher) ∧
    (([⟨"v0", "s1", "Alice Johnson", "t0", 290, false⟩] :
        List Voucher).length ≤
      (run ⟨DEMO_STUDENTS,
          [⟨"v0", "s1", "Alice Johnson", "t0", 290, false⟩], none⟩
        [Op.adjust "s3" 2, Op.issue (some "s2") "v1" "t1",
          Op.toggle "v1"]).vouchers.length ∧
     ∃ v' ∈ (run ⟨DEMO_STUDENTS,
          [⟨"v0", "s1", "Alice Johnson", "t0", 290, false⟩], none⟩
        [Op.adjust "s3" 2, Op.issue (some "s2") "v1" "t1",
          Op.toggle "v1"]).vouchers,
      v'.id = "v0" ∧ v'.studentId = "s1" ∧
      v'.studentName = "Alice Johnson" ∧ v'.issuedAt = "t0" ∧
      v'.amountPence = 290 ∧
      (v'.redeemed ≠ false →
        Op.toggle "v0" ∈ [Op.adjust "s3" 2, Op.issue (some "s2") "v1" "t1",
          Op.toggle "v1"])) :=
  ⟨by decide,
    ledger_permanent_fields_immutable
      ⟨DEMO_STUDENTS, [⟨"v0", "s1", "Alice Johnson", "t0", 290, false⟩], none⟩
      [Op.adjust "s3" 2, Op.issue (some "s2") "v1" "t1", Op.toggle "v1"]
      ⟨"v0", "s1", "Alice Johnson", "t0", 290, false⟩ (by decide)⟩

end CafeVoucher
